import Mathlib

/-
Verification of the farm-game core (model.py, a3_support.py, constants.py).

Shallow embedding conventions:
* Python `int` is embedded as `Int` where values can go negative (energy,
  money, inventory amounts, prices, positions) and as `Nat` for counters
  that only ever increase from 0 (plant day counters, growth stages).
* Python `dict` is embedded as an association list `List (key × value)`
  with the usual update-in-place / append-at-end assignment semantics
  (`dset`), first-match lookup (`dget`) and `pop` (`dpop`).  Reachable
  states have unique keys, which is tracked by `nodup_keys` where needed.
* A Python method that can raise (dict.pop with no default raising a
  KeyError) is embedded as returning an `Option`, `none` being the raise.
* Mutation is embedded as explicit state passing: a method that mutates
  `self` becomes a function returning the new state (paired with the
  Python return value when there is one).
-/

set_option autoImplicit false

namespace Farm

/- Tile codes (constants.py). -/
def GRASS : Char := 'G'
def SOIL : Char := 'S'
def UNTILLED : Char := 'U'

/- Energy costs of actions (constants.py: "only applied if action was
   successful"). -/
def MOVE_COST : Int := 1
def HARVEST_COST : Int := 3
def PLANT_COST : Int := 2
def REMOVE_COST : Int := 2
def TILL_COST : Int := 3
def UNTILL_COST : Int := 3

/-- The four movement directions.  In constants.py these are the characters
UP = 'w', DOWN = 's', LEFT = 'a', RIGHT = 'd'; the embedding uses an
enumeration, which also captures the documented pre-condition
`direction in (UP, DOWN, LEFT, RIGHT)`. -/
inductive Direction where
  | up
  | down
  | left
  | right
deriving DecidableEq

/-- MOVE_DELTAS from constants.py: direction to (delta row, delta col). -/
def MOVE_DELTAS : Direction → Int × Int
  | .left => (0, -1)
  | .down => (1, 0)
  | .right => (0, 1)
  | .up => (-1, 0)

/-- The closed set of plant variants of model.py (classes PotatoPlant,
KalePlant, BerryPlant), each constructor carrying that class's mutable
fields: `_stage`, and for Kale `_days`, and for Berry `_days` and
`_days_since_harvest`. -/
inductive Plant where
  | potato (stage : Nat)
  | kale (stage : Nat) (days : Nat)
  | berry (stage : Nat) (days : Nat) (days_since_harvest : Nat)
deriving DecidableEq

/-- A freshly constructed PotatoPlant (`Plant.__init__` sets `_stage = 1`). -/
def PotatoPlant.new : Plant := .potato 1

/-- A freshly constructed KalePlant (`_stage = 1`, `_days = 0`). -/
def KalePlant.new : Plant := .kale 1 0

/-- A freshly constructed BerryPlant (`_stage = 1`, `_days = 0`,
`_days_since_harvest = 0`). -/
def BerryPlant.new : Plant := .berry 1 0 0

/-- BerryPlant._DAYS_TO_STAGE. -/
def DAYS_TO_STAGE : List Nat := [1, 2, 2, 2, 3, 3, 3, 4, 4, 4, 4, 5, 5, 6]

/-- `get_stage` of each plant class. -/
def Plant.get_stage : Plant → Nat
  | .potato stage => stage
  | .kale stage _ => stage
  | .berry stage _ _ => stage

/-- `age` of each plant class.
* Potato: `self._stage = min(self._stage + 1, 5)`.
* Kale: `self._days += 1; self._stage = 5 if self._days >= 6 else
  (self._days + 1) // 2 + 1`.
* Berry: `self._days += 1`; if `self._days <= 13` the stage is read from
  `_DAYS_TO_STAGE[self._days]`; otherwise `_days_since_harvest` is
  incremented and the stage becomes 6 when `_days_since_harvest >= 4` or
  the stage already was 6, else 5. -/
def Plant.age : Plant → Plant
  | .potato stage => .potato (min (stage + 1) 5)
  | .kale _ days =>
      .kale (if 6 ≤ days + 1 then 5 else (days + 1 + 1) / 2 + 1) (days + 1)
  | .berry stage days dsh =>
      if days + 1 ≤ 13 then .berry (DAYS_TO_STAGE.getD (days + 1) 0) (days + 1) dsh
      else if 4 ≤ dsh + 1 ∨ stage = 6 then .berry 6 (days + 1) (dsh + 1)
      else .berry 5 (days + 1) (dsh + 1)

/-- `can_harvest` of each plant class: Potato and Kale at stage 5, Berry at
stage 6. -/
def Plant.can_harvest : Plant → Bool
  | .potato stage => stage == 5
  | .kale stage _ => stage == 5
  | .berry stage _ _ => stage == 6

/-- `remove_on_harvest`: the `Plant` base class returns True; BerryPlant
overrides it to False. -/
def Plant.remove_on_harvest : Plant → Bool
  | .berry _ _ _ => false
  | _ => true

/-- `harvest` of each plant class: returns the Python return value
(`None` embedded as `none`) together with the plant's state after the
call (only Berry mutates: stage back to 5, `_days_since_harvest = 0`). -/
def Plant.harvest : Plant → Option (String × Int) × Plant
  | .potato stage =>
      (if stage == 5 then some ("Potato", 1) else none, .potato stage)
  | .kale stage days =>
      (if stage == 5 then some ("Kale", 1) else none, .kale stage days)
  | .berry stage days dsh =>
      if stage == 6 then (some ("Berry", 3), .berry 5 days 0)
      else (none, .berry stage days dsh)

section Dict

variable {α : Type} {β : Type} [DecidableEq α]

/-- Python dict lookup `m.get(k)` on an association list: first entry with
the given key. -/
def dget : List (α × β) → α → Option β
  | [], _ => none
  | kv :: rest, k => if kv.1 = k then some kv.2 else dget rest k

/-- Python dict lookup with default, `m.get(k, d)`. -/
def dgetD (m : List (α × β)) (k : α) (d : β) : β :=
  (dget m k).getD d

/-- Python dict membership `k in m`. -/
def dmem (m : List (α × β)) (k : α) : Bool :=
  (dget m k).isSome

/-- Python dict assignment `m[k] = v`: replace the value in place if the key
is present, append at the end otherwise. -/
def dset : List (α × β) → α → β → List (α × β)
  | [], k, v => [(k, v)]
  | kv :: rest, k, v => if kv.1 = k then (k, v) :: rest else kv :: dset rest k v

/-- Python `m.pop(k)` for a present key: remove the (first) entry with the
given key. -/
def dpop : List (α × β) → α → List (α × β)
  | [], _ => []
  | kv :: rest, k => if kv.1 = k then rest else kv :: dpop rest k

/-- Keys are pairwise distinct, as in a Python dict. -/
def nodup_keys : List (α × β) → Prop
  | [] => True
  | kv :: rest => dget rest kv.1 = none ∧ nodup_keys rest

instance nodup_keys.decidable [DecidableEq β] :
    ∀ m : List (α × β), Decidable (nodup_keys m)
  | [] => .isTrue trivial
  | _ :: rest =>
      have := nodup_keys.decidable rest
      instDecidableAnd

end Dict

/-- `Player.START_ENERGY`. -/
def START_ENERGY : Int := 100

/-- The `Player` class of model.py: fields `_energy`, `_money`,
`_inventory`, `_position`, `_direction`, `_selected_item`. -/
structure Player where
  energy : Int
  money : Int
  inventory : List (String × Int)
  position : Int × Int
  direction : Direction
  selected_item : Option String
deriving DecidableEq

/-- `Player.__init__`: energy 100, no money, 5 Potato Seeds and 5 Kale
Seeds, at (0, 0) facing DOWN, nothing selected. -/
def Player.init : Player :=
  { energy := START_ENERGY
    money := 0
    inventory := [("Potato Seed", 5), ("Kale Seed", 5)]
    position := (0, 0)
    direction := .down
    selected_item := none }

/-- `Player.reset_energy`. -/
def Player.reset_energy (p : Player) : Player :=
  { p with energy := START_ENERGY }

/-- `Player.reduce_energy`: subtracts unconditionally, no non-negativity
floor. -/
def Player.reduce_energy (p : Player) (amount : Int) : Player :=
  { p with energy := p.energy - amount }

/-- `Player.select_item`: only takes effect if the name is an inventory
key. -/
def Player.select_item (p : Player) (item_name : String) : Player :=
  if dmem p.inventory item_name then { p with selected_item := some item_name }
  else p

/-- `Player.add_item`: `self._inventory[item_name] =
self._inventory.get(item_name, 0) + amount`. -/
def Player.add_item (p : Player) (to_add : String × Int) : Player :=
  { p with inventory :=
        dset p.inventory to_add.1 (dgetD p.inventory to_add.1 0 + to_add.2) }

/-- `Player.remove_item`: computes `new_amount = get(item, 0) - amount`;
if `new_amount <= 0` it calls `self._inventory.pop(item_name)` — a pop
with no default, which raises a KeyError when the key is absent
(embedded as `none`); otherwise it stores `new_amount`. -/
def Player.remove_item (p : Player) (to_remove : String × Int) : Option Player :=
  if dgetD p.inventory to_remove.1 0 - to_remove.2 ≤ 0 then
    if dmem p.inventory to_remove.1 then
      some { p with inventory := dpop p.inventory to_remove.1 }
    else none
  else
    some { p with inventory := dset p.inventory to_remove.1 (dgetD p.inventory to_remove.1 0 - to_remove.2) }

/-- `Player.sell`: if `self._inventory.get(item_name, 0) > 0`, add the
price to money and remove one instance.  The `none` branch of
`remove_item` is unreachable here (the guard guarantees the key is
present); its value is the player with the money already added, matching
the partial mutation Python would have performed before the raise. -/
def Player.sell (p : Player) (item_name : String) (price : Int) : Player :=
  if 0 < dgetD p.inventory item_name 0 then
    match ({ p with money := p.money + price } : Player).remove_item (item_name, 1) with
    | some p' => p'
    | none => { p with money := p.money + price }
  else p

/-- `Player.buy`: if `self._money >= price`, deduct the price and add one
instance. -/
def Player.buy (p : Player) (item_name : String) (price : Int) : Player :=
  if price ≤ p.money then
    ({ p with money := p.money - price } : Player).add_item (item_name, 1)
  else p

/-- `read_map` of a3_support.py, applied to the lines of the file:
`[line.strip() for line in file.readlines()]`.  A row is embedded as a
list of characters; `strip_line` is Python's `str.strip()` (drop leading
and trailing whitespace).  Opening an unreadable file raises before any
model state exists; that I/O step is outside the embedding, which starts
from the list of lines read. -/
def strip_line (l : List Char) : List Char :=
  ((l.dropWhile Char.isWhitespace).reverse.dropWhile Char.isWhitespace).reverse

def read_map (lines : List (List Char)) : List (List Char) :=
  lines.map strip_line

/-- The `FarmModel` class: fields `_map`, `_plants`, `_player`,
`_days_elapsed`. -/
structure FarmModel where
  map : List (List Char)
  plants : List ((Int × Int) × Plant)
  player : Player
  days_elapsed : Nat
deriving DecidableEq

/-- `FarmModel.__init__`: reads the map, starts with no plants, a fresh
player, and `_days_elapsed = 1`.  No validation of the map lines is
performed. -/
def FarmModel.init (lines : List (List Char)) : FarmModel :=
  { map := read_map lines
    plants := []
    player := Player.init
    days_elapsed := 1 }

/-- `FarmModel.get_dimensions`: `(len(self._map), len(self._map[0]))`.
On an empty map Python would raise an IndexError; the embedding returns
0 columns, a case no claim depends on (the theorems about movement
assume a non-empty map). -/
def FarmModel.get_dimensions (m : FarmModel) : Int × Int :=
  ((m.map.length : Int), ((m.map.headD []).length : Int))

/-- `FarmModel.add_plant`: energy gate on PLANT_COST, then requires
`self._plants.get(position) is None`; on success inserts the plant,
deducts the cost, and returns True. -/
def FarmModel.add_plant (m : FarmModel) (position : Int × Int) (plant : Plant) :
    Bool × FarmModel :=
  if m.player.energy < PLANT_COST then (false, m)
  else if dget m.plants position = none then
    (true, { m with player := m.player.reduce_energy PLANT_COST,
                    plants := dset m.plants position plant })
  else (false, m)

/-- `FarmModel.remove_plant`: energy gate on REMOVE_COST, then requires
`position in self._plants`; on success deducts the cost and pops the
entry. -/
def FarmModel.remove_plant (m : FarmModel) (position : Int × Int) : FarmModel :=
  if m.player.energy < REMOVE_COST then m
  else if dmem m.plants position then
    { m with player := m.player.reduce_energy REMOVE_COST,
             plants := dpop m.plants position }
  else m

/-- `FarmModel.harvest_plant`: energy gate on HARVEST_COST; if a plant is
present, call its `harvest()` (which mutates the plant in place — the
map entry is updated accordingly); if it yielded a result, call
`self.remove_plant(position)` when `remove_on_harvest()` holds (note:
`remove_plant` performs its own energy check and deducts REMOVE_COST),
then deduct HARVEST_COST and return the result. -/
def FarmModel.harvest_plant (m : FarmModel) (position : Int × Int) :
    Option (String × Int) × FarmModel :=
  if m.player.energy < HARVEST_COST then (none, m)
  else
    match dget m.plants position with
    | none => (none, m)
    | some plant =>
        let harvested := plant.harvest
        let m1 : FarmModel := { m with plants := dset m.plants position harvested.2 }
        match harvested.1 with
        | none => (none, m1)
        | some result =>
            let m2 := if harvested.2.remove_on_harvest then m1.remove_plant position
                      else m1
            (some result, { m2 with player := m2.player.reduce_energy HARVEST_COST })

/-- `FarmModel.new_day`: ages every plant, increments `_days_elapsed`,
resets the player's energy.  No energy gate. -/
def FarmModel.new_day (m : FarmModel) : FarmModel :=
  { m with plants := m.plants.map (fun kv => (kv.1, kv.2.age)),
           days_elapsed := m.days_elapsed + 1,
           player := m.player.reset_energy }

/-- `FarmModel.move_player`: energy gate on MOVE_COST; computes the new
position from MOVE_DELTAS, clamps each coordinate with
`max(0, min(new, dimension - 1))`, sets position and direction
unconditionally, and reduces energy only if the position changed. -/
def FarmModel.move_player (m : FarmModel) (direction : Direction) : FarmModel :=
  if m.player.energy < MOVE_COST then m
  else
    let old_pos := m.player.position
    let new_row := max 0 (min (old_pos.1 + (MOVE_DELTAS direction).1)
                              (m.get_dimensions.1 - 1))
    let new_col := max 0 (min (old_pos.2 + (MOVE_DELTAS direction).2)
                              (m.get_dimensions.2 - 1))
    let p1 := { m.player with position := (new_row, new_col), direction := direction }
    let p2 := if (new_row, new_col) ≠ old_pos then p1.reduce_energy MOVE_COST else p1
    { m with player := p2 }

/-- Reading `self._map[row][col]`.  Python would raise an IndexError for
an out-of-range index and would wrap around for a negative one; both are
embedded as `none` (no claim exercises those cases: positions reaching
the tile actions come from the clamped, in-bounds player position). -/
def tile_at (map : List (List Char)) (row col : Int) : Option Char :=
  if 0 ≤ row ∧ 0 ≤ col then
    (map.get? row.toNat).bind (fun r => r.get? col.toNat)
  else none

/-- `self._map[row] = self._map[row][:col] + tile + self._map[row][col + 1:]`. -/
def set_tile (map : List (List Char)) (row col : Int) (tile : Char) :
    List (List Char) :=
  map.set row.toNat
    ((map.getD row.toNat []).take col.toNat ++ [tile]
      ++ (map.getD row.toNat []).drop (col.toNat + 1))

/-- `FarmModel.till_soil`: energy gate on TILL_COST; if the tile is
UNTILLED, deduct the cost and rewrite the cell to SOIL. -/
def FarmModel.till_soil (m : FarmModel) (position : Int × Int) : FarmModel :=
  if m.player.energy < TILL_COST then m
  else if tile_at m.map position.1 position.2 = some UNTILLED then
    { m with player := m.player.reduce_energy TILL_COST,
             map := set_tile m.map position.1 position.2 SOIL }
  else m

/-- `FarmModel.untill_soil`: energy gate on UNTILL_COST; if no plant
occupies the position and the tile is SOIL, deduct the cost and rewrite
the cell to UNTILLED. -/
def FarmModel.untill_soil (m : FarmModel) (position : Int × Int) : FarmModel :=
  if m.player.energy < UNTILL_COST then m
  else if dmem m.plants position = false
          ∧ tile_at m.map position.1 position.2 = some SOIL then
    { m with player := m.player.reduce_energy UNTILL_COST,
             map := set_tile m.map position.1 position.2 UNTILLED }
  else m


/-- A 3x3 demo map: all Grass except a Soil tile at (1, 1).  This is the
map of the spec's end-to-end scenario. -/
def demo_lines : List (List Char) :=
  [['G', 'G', 'G'], ['G', 'S', 'G'], ['G', 'G', 'G']]

/-- The end-to-end scenario, after the two moves: down then right. -/
def demo_moved : FarmModel :=
  ((FarmModel.init demo_lines).move_player .down).move_player .right

/-- The scenario after planting a potato at (1, 1). -/
def demo_planted : FarmModel :=
  (demo_moved.add_plant (1, 1) PotatoPlant.new).2

/-- The scenario after four `new_day()` calls. -/
def demo_day5 : FarmModel :=
  demo_planted.new_day.new_day.new_day.new_day

/-- The scenario's final harvest call. -/
def demo_harvested : Option (String × Int) × FarmModel :=
  demo_day5.harvest_plant (1, 1)

/-- A farm state whose player has no energy left (reachable by spending
all 100 energy in moves). -/
def broke_model : FarmModel :=
  { FarmModel.init demo_lines with player := { Player.init with energy := 0 } }

/-- A store/inventory operation: one call to `Player.buy`, `Player.sell`
or `Player.add_item`. -/
inductive ShopOp where
  | buy (item : String) (price : Int)
  | sell (item : String) (price : Int)
  | add (item : String) (amount : Int)

/-- Apply one store/inventory operation. -/
def apply_shop_op (p : Player) : ShopOp → Player
  | .buy item price => p.buy item price
  | .sell item price => p.sell item price
  | .add item amount => p.add_item (item, amount)

/-- Apply a sequence of store/inventory operations, left to right. -/
def apply_shop_ops (p : Player) : List ShopOp → Player
  | [] => p
  | op :: rest => apply_shop_ops (apply_shop_op p op) rest

/-- The amount of an `add_item` operation is at least 1 (`buy` and `sell`
always pass amount 1 themselves). -/
def add_amount_pos : ShopOp → Prop
  | .add _ amount => 1 ≤ amount
  | _ => True

instance add_amount_pos.decidable : ∀ op : ShopOp, Decidable (add_amount_pos op)
  | .buy _ _ => .isTrue trivial
  | .sell _ _ => .isTrue trivial
  | .add _ a => Int.decLe 1 a

section DictLemmas

variable {α : Type} {β : Type} [DecidableEq α]

theorem nodup_keys_cons (kv : α × β) (rest : List (α × β)) :
    nodup_keys (kv :: rest) ↔ dget rest kv.1 = none ∧ nodup_keys rest :=
  Iff.rfl

theorem dget_dset_self (m : List (α × β)) (k : α) (v : β) :
    dget (dset m k v) k = some v := by
  induction m with
  | nil => simp [dset, dget]
  | cons kv rest ih =>
      by_cases h : kv.1 = k <;> simp [dset, dget, h, ih]

theorem dget_dset_ne (m : List (α × β)) (k k' : α) (v : β) (h : k' ≠ k) :
    dget (dset m k v) k' = dget m k' := by
  induction m with
  | nil => simp [dset, dget, Ne.symm h]
  | cons kv rest ih =>
      by_cases hk : kv.1 = k
      · subst hk
        simp [dset, dget, Ne.symm h]
      · simp only [dset, if_neg hk, dget]
        by_cases hk' : kv.1 = k' <;> simp [hk', ih]

theorem dget_dpop_ne (m : List (α × β)) (k k' : α) (h : k' ≠ k) :
    dget (dpop m k) k' = dget m k' := by
  induction m with
  | nil => simp [dpop]
  | cons kv rest ih =>
      by_cases hk : kv.1 = k
      · subst hk
        simp [dpop, dget, Ne.symm h]
      · simp only [dpop, if_neg hk, dget]
        by_cases hk' : kv.1 = k' <;> simp [hk', ih]

theorem dget_dpop_self (m : List (α × β)) (k : α) (hn : nodup_keys m) :
    dget (dpop m k) k = none := by
  induction m with
  | nil => simp [dpop, dget]
  | cons kv rest ih =>
      obtain ⟨h1, h2⟩ := hn
      by_cases hk : kv.1 = k
      · subst hk
        simpa [dpop] using h1
      · simp [dpop, dget, hk, ih h2]

theorem nodup_keys_dset (m : List (α × β)) (k : α) (v : β)
    (hn : nodup_keys m) : nodup_keys (dset m k v) := by
  induction m with
  | nil => simp [dset, nodup_keys, dget]
  | cons kv rest ih =>
      obtain ⟨h1, h2⟩ := hn
      by_cases hk : kv.1 = k
      · subst hk
        simp only [dset, if_pos rfl, nodup_keys_cons]
        exact ⟨h1, h2⟩
      · simp only [dset, if_neg hk, nodup_keys_cons]
        exact ⟨by rw [dget_dset_ne rest k kv.1 v hk]; exact h1, ih h2⟩

theorem nodup_keys_dpop (m : List (α × β)) (k : α)
    (hn : nodup_keys m) : nodup_keys (dpop m k) := by
  induction m with
  | nil => trivial
  | cons kv rest ih =>
      obtain ⟨h1, h2⟩ := hn
      by_cases hk : kv.1 = k
      · simpa [dpop, hk] using h2
      · simp only [dpop, if_neg hk, nodup_keys_cons]
        exact ⟨by rw [dget_dpop_ne rest k kv.1 hk]; exact h1, ih h2⟩

theorem mem_dset (m : List (α × β)) (k : α) (v : β) :
    ∀ kv ∈ dset m k v, kv = (k, v) ∨ kv ∈ m := by
  induction m with
  | nil => simp [dset]
  | cons hd rest ih =>
      intro kv hkv
      by_cases hk : hd.1 = k
      · rcases (by simpa [dset, hk] using hkv : kv = (k, v) ∨ kv ∈ rest) with h | h
        · exact Or.inl h
        · exact Or.inr (List.mem_cons_of_mem hd h)
      · rcases (by simpa [dset, hk] using hkv : kv = hd ∨ kv ∈ dset rest k v) with h | h
        · exact Or.inr (h ▸ List.mem_cons_self hd rest)
        · rcases ih kv h with h' | h'
          · exact Or.inl h'
          · exact Or.inr (List.mem_cons_of_mem hd h')

theorem mem_dpop (m : List (α × β)) (k : α) :
    ∀ kv ∈ dpop m k, kv ∈ m := by
  induction m with
  | nil => simp [dpop]
  | cons hd rest ih =>
      intro kv hkv
      by_cases hk : hd.1 = k
      · exact List.mem_cons_of_mem hd (by simpa [dpop, hk] using hkv)
      · rcases (by simpa [dpop, hk] using hkv : kv = hd ∨ kv ∈ dpop rest k) with h | h
        · exact h ▸ List.mem_cons_self hd rest
        · exact List.mem_cons_of_mem hd (ih kv h)

theorem dget_mem (m : List (α × β)) (k : α) (v : β)
    (h : dget m k = some v) : (k, v) ∈ m := by
  induction m with
  | nil => simp [dget] at h
  | cons hd rest ih =>
      by_cases hk : hd.1 = k
      · simp only [dget, if_pos hk, Option.some.injEq] at h
        exact List.mem_cons.mpr (Or.inl (Prod.ext hk h).symm)
      · simp only [dget, if_neg hk] at h
        exact List.mem_cons_of_mem hd (ih h)


theorem dget_of_dmem_false {m : List (α × β)} {k : α}
    (h : dmem m k = false) : dget m k = none := by
  unfold dmem at h
  exact Option.not_isSome_iff_eq_none.mp (by simp [h])

theorem dmem_true_of_dget_eq_some {m : List (α × β)} {k : α} {v : β}
    (h : dget m k = some v) : dmem m k = true := by
  simp [dmem, h]

end DictLemmas

theorem dmem_true_of_dgetD_pos {m : List (String × Int)} {k : String}
    (h : 0 < dgetD m k 0) : dmem m k = true := by
  rcases hv : dget m k with _ | v
  · rw [dgetD, hv] at h
    exact absurd h (by simp)
  · exact dmem_true_of_dget_eq_some hv

theorem dgetD_nonneg_of_pos {m : List (String × Int)} {k : String}
    (hpos : ∀ kv ∈ m, 1 ≤ kv.2) : 0 ≤ dgetD m k 0 := by
  rcases hv : dget m k with _ | v
  · simp [dgetD, hv]
  · have := hpos (k, v) (dget_mem m k v hv)
    simp only [dgetD, hv, Option.getD_some]
    omega

/-- `remove_item` never stores a non-positive count: if it returns
normally, every inventory count that was at least 1 stays at least 1. -/
theorem remove_item_keeps_pos (p : Player) (item : String) (amount : Int)
    (p' : Player) (h : p.remove_item (item, amount) = some p')
    (hpos : ∀ kv ∈ p.inventory, 1 ≤ kv.2) :
    ∀ kv ∈ p'.inventory, 1 ≤ kv.2 := by
  unfold Player.remove_item at h
  by_cases hle : dgetD p.inventory item 0 - amount ≤ 0
  · rw [if_pos hle] at h
    by_cases hm : dmem p.inventory item
    · rw [if_pos hm] at h
      obtain rfl := Option.some_inj.mp h
      intro kv hkv
      exact hpos kv (mem_dpop p.inventory item kv (by simpa using hkv))
    · rw [if_neg hm] at h
      exact absurd h (by simp)
  · rw [if_neg hle] at h
    obtain rfl := Option.some_inj.mp h
    intro kv hkv
    rcases mem_dset p.inventory item (dgetD p.inventory item 0 - amount) kv
        (by simpa using hkv) with hkv' | hkv'
    · rw [hkv']
      simp only
      omega
    · exact hpos kv hkv'

/-- C1: in the end-to-end scenario the harvest does return (Potato, 1)
and does delete the plant, but it reduces the energy by 5, not by 3:
`harvest_plant` reaches the removal through `remove_plant`, which
deducts REMOVE_COST = 2 on top of HARVEST_COST = 3, so the energy after
the harvesting day's reset is 95, not the 100 - 3 = 97 the spec states
(constants.py documents 3 as the energy cost of a harvest). -/
theorem harvest_scenario_actual :
    demo_moved.player.energy = 98 ∧ demo_moved.player.position = (1, 1)
    ∧ (demo_moved.add_plant (1, 1) PotatoPlant.new).1 = true
    ∧ demo_planted.player.energy = 96
    ∧ dget demo_day5.plants (1, 1) = some (.potato 5)
    ∧ demo_day5.player.energy = 100
    ∧ demo_harvested.1 = some ("Potato", 1)
    ∧ demo_harvested.2.plants = []
    ∧ demo_harvested.2.player.energy = 100 - HARVEST_COST - REMOVE_COST
    ∧ demo_harvested.2.player.energy ≠ 97 := by decide

/-- C2 counterexample: a FarmModel IS constructed from malformed map
data.  From ragged rows the constructor succeeds and stores rows of
unequal lengths 2 and 1; from an empty file it succeeds with an empty
map.  No load failure is reported (`read_map` performs no validation;
the only failure Python can raise here is the `open` call on an
unreadable file, before any parsing). -/
theorem init_accepts_malformed_map :
    (FarmModel.init [['G', 'G'], ['G']]).map = [['G', 'G'], ['G']]
    ∧ (FarmModel.init [['G', 'G'], ['G']]).map.map List.length = [2, 1]
    ∧ (FarmModel.init [['G', 'G'], ['G']]).days_elapsed = 1
    ∧ (FarmModel.init []).map = []
    ∧ (FarmModel.init []).days_elapsed = 1 := by decide

/-- C2 (amended): construction never fails and performs no structure
validation: for every file contents (ragged or empty included) the model
is built with the stripped lines as its map, no plants, a fresh player
and day 1.  Only an unreadable file fails, in the `open` call before the
model exists. -/
theorem init_no_validation (lines : List (List Char)) :
    (FarmModel.init lines).map = lines.map strip_line
    ∧ (FarmModel.init lines).plants = []
    ∧ (FarmModel.init lines).player = Player.init
    ∧ (FarmModel.init lines).days_elapsed = 1 :=
  ⟨rfl, rfl, rfl, rfl⟩

/-- Witness for C2's amended theorem at the ragged input. -/
theorem init_no_validation_witness :
    (FarmModel.init [['G', 'G'], ['G']]).map = [['G', 'G'], ['G']]
    ∧ (FarmModel.init [['G', 'G'], ['G']]).plants = [] :=
  ⟨((init_no_validation [['G', 'G'], ['G']]).1).trans (by decide),
   (init_no_validation [['G', 'G'], ['G']]).2.1⟩

/-- C6: a fresh BerryPlant is at stage 6 and harvestable after 14 `age()`
calls; harvesting yields (Berry, 3), resets the stage to 5 and
`days_since_harvest` to 0; `remove_on_harvest` is false; after that
harvest, `can_harvest` is false after 1, 2 and 3 further `age()` calls
and true after the 4th. -/
theorem berry_growth_cycle :
    (Plant.age^[14] BerryPlant.new).get_stage = 6
    ∧ (Plant.age^[14] BerryPlant.new).can_harvest = true
    ∧ (Plant.age^[14] BerryPlant.new).harvest.1 = some ("Berry", 3)
    ∧ (Plant.age^[14] BerryPlant.new).harvest.2 = Plant.berry 5 14 0
    ∧ (Plant.age^[14] BerryPlant.new).remove_on_harvest = false
    ∧ (Plant.age^[1] (Plant.age^[14] BerryPlant.new).harvest.2).can_harvest = false
    ∧ (Plant.age^[2] (Plant.age^[14] BerryPlant.new).harvest.2).can_harvest = false
    ∧ (Plant.age^[3] (Plant.age^[14] BerryPlant.new).harvest.2).can_harvest = false
    ∧ (Plant.age^[4] (Plant.age^[14] BerryPlant.new).harvest.2).can_harvest = true := by
  decide

/-- C8: every mutating farm action is a complete no-op — identical tile
map, plant map and player (energy included) — returning failure or
nothing, when the player's energy is strictly below the action's cost. -/
theorem insufficient_energy_noop (m : FarmModel) (pos : Int × Int)
    (pl : Plant) (d : Direction) :
    (m.player.energy < MOVE_COST → m.move_player d = m)
    ∧ (m.player.energy < TILL_COST → m.till_soil pos = m)
    ∧ (m.player.energy < UNTILL_COST → m.untill_soil pos = m)
    ∧ (m.player.energy < PLANT_COST → m.add_plant pos pl = (false, m))
    ∧ (m.player.energy < HARVEST_COST → m.harvest_plant pos = (none, m))
    ∧ (m.player.energy < REMOVE_COST → m.remove_plant pos = m) := by
  refine ⟨fun h => ?_, fun h => ?_, fun h => ?_, fun h => ?_, fun h => ?_,
    fun h => ?_⟩
  · unfold FarmModel.move_player
    rw [if_pos h]
  · unfold FarmModel.till_soil
    rw [if_pos h]
  · unfold FarmModel.untill_soil
    rw [if_pos h]
  · unfold FarmModel.add_plant
    rw [if_pos h]
  · unfold FarmModel.harvest_plant
    rw [if_pos h]
  · unfold FarmModel.remove_plant
    rw [if_pos h]

/-- Witness for C8 at a concrete zero-energy state. -/
theorem insufficient_energy_noop_witness :
    broke_model.move_player .up = broke_model
    ∧ broke_model.till_soil (1, 1) = broke_model
    ∧ broke_model.untill_soil (1, 1) = broke_model
    ∧ broke_model.add_plant (1, 1) PotatoPlant.new = (false, broke_model)
    ∧ broke_model.harvest_plant (1, 1) = (none, broke_model)
    ∧ broke_model.remove_plant (1, 1) = broke_model := by
  have h := insufficient_energy_noop broke_model (1, 1) PotatoPlant.new .up
  exact ⟨h.1 (by decide), h.2.1 (by decide), h.2.2.1 (by decide),
    h.2.2.2.1 (by decide), h.2.2.2.2.1 (by decide), h.2.2.2.2.2 (by decide)⟩

/-- C10: `add_plant` never inspects the tile grid: whatever the map (so
whatever tile — Grass, Soil or Untilled — is at the position), if the
energy is at least PLANT_COST and no plant is at the position, it
inserts the plant, returns True, deducts exactly PLANT_COST, and touches
nothing else. -/
theorem add_plant_ignores_tiles (m : FarmModel) (pos : Int × Int)
    (pl : Plant) (he : PLANT_COST ≤ m.player.energy)
    (hv : dget m.plants pos = none) :
    (m.add_plant pos pl).1 = true
    ∧ (m.add_plant pos pl).2.map = m.map
    ∧ dget (m.add_plant pos pl).2.plants pos = some pl
    ∧ (∀ q, q ≠ pos → dget (m.add_plant pos pl).2.plants q = dget m.plants q)
    ∧ (m.add_plant pos pl).2.player.energy = m.player.energy - PLANT_COST
    ∧ (m.add_plant pos pl).2.player.position = m.player.position
    ∧ (m.add_plant pos pl).2.player.inventory = m.player.inventory
    ∧ (m.add_plant pos pl).2.days_elapsed = m.days_elapsed := by
  have hgate : ¬ m.player.energy < PLANT_COST := not_lt.mpr he
  unfold FarmModel.add_plant
  rw [if_neg hgate, hv, if_pos rfl]
  exact ⟨rfl, rfl, dget_dset_self m.plants pos pl,
    fun q hq => dget_dset_ne m.plants pos q pl hq, rfl, rfl, rfl, rfl⟩

/-- Witness for C10: planting on the Grass tile (0, 0) of the demo map
succeeds. -/
theorem add_plant_ignores_tiles_witness :
    ((FarmModel.init demo_lines).add_plant (0, 0) KalePlant.new).1 = true
    ∧ dget ((FarmModel.init demo_lines).add_plant (0, 0) KalePlant.new).2.plants
        (0, 0) = some KalePlant.new
    ∧ ((FarmModel.init demo_lines).add_plant (0, 0) KalePlant.new).2.player.energy
        = 98 := by
  have h := add_plant_ignores_tiles (FarmModel.init demo_lines) (0, 0)
    KalePlant.new (by decide) (by decide)
  exact ⟨h.1, h.2.2.1, (h.2.2.2.2.1).trans (by decide)⟩


/-- C3 counterexample: `remove_item` on an item entirely absent from the
inventory DOES raise: the Python code reaches
`self._inventory.pop(item_name)` with an absent key and no default,
raising a KeyError (embedded as `none`).  A fresh player holds no
"Berry", so this call raises. -/
theorem remove_item_absent_raises :
    Player.init.remove_item ("Berry", 1) = none := by decide

/-- C3 (amended): for every item and amount, when the item is present in
the inventory `remove_item` returns normally, deleting the key whenever
the resulting count would be ≤ 0 and otherwise storing the positive
remainder — even when the amount removed exceeds the amount held; it
never stores a non-positive count.  But when the item is absent (and the
amount is non-negative, so the resulting count would be ≤ 0), the
`pop` raises a KeyError instead of returning. -/
theorem remove_item_amended (p : Player) (item : String) (amount : Int)
    (hn : nodup_keys p.inventory) :
    (dmem p.inventory item = true →
        ∃ p', p.remove_item (item, amount) = some p'
          ∧ dget p'.inventory item =
              (if dgetD p.inventory item 0 - amount ≤ 0 then none
               else some (dgetD p.inventory item 0 - amount)))
    ∧ (dmem p.inventory item = false → 0 ≤ amount →
        p.remove_item (item, amount) = none)
    ∧ (∀ p', p.remove_item (item, amount) = some p' →
        (∀ kv ∈ p.inventory, 1 ≤ kv.2) → (∀ kv ∈ p'.inventory, 1 ≤ kv.2)) := by
  refine ⟨fun hm => ?_, fun hm ha => ?_, fun p' hp' => remove_item_keeps_pos p item amount p' hp'⟩
  · unfold Player.remove_item
    by_cases hle : dgetD p.inventory item 0 - amount ≤ 0
    · rw [if_pos hle, if_pos hm]
      exact ⟨_, rfl, by rw [if_pos hle]; exact dget_dpop_self p.inventory item hn⟩
    · rw [if_neg hle]
      exact ⟨_, rfl, by rw [if_neg hle]; exact dget_dset_self p.inventory item _⟩
  · unfold Player.remove_item
    have hg : dget p.inventory item = none := dget_of_dmem_false hm
    have hle : dgetD p.inventory item 0 - amount ≤ 0 := by
      rw [dgetD, hg]
      simpa using ha
    rw [if_pos hle, if_neg (by simp [hm])]

/-- Witness for C3's amended theorem: removing 7 "Potato Seed" from the
fresh inventory (which holds 5) returns normally and deletes the key. -/
theorem remove_item_amended_witness :
    (∃ p', Player.init.remove_item ("Potato Seed", 7) = some p'
       ∧ dget p'.inventory "Potato Seed" = none)
    ∧ Player.init.remove_item ("Grass", 2) = none := by
  have h := remove_item_amended Player.init "Potato Seed" 7 (by decide)
  have h2 := remove_item_amended Player.init "Grass" 2 (by decide)
  obtain ⟨p', h1, hv⟩ := h.1 (by decide)
  exact ⟨⟨p', h1, hv.trans (by decide)⟩, h2.2.1 (by decide) (by decide)⟩

/-- C9 counterexample: the inventory-count invariant fails for `add_item`
with a non-positive amount: after the one-operation sequence
`add_item(("Berry", 0))` on a fresh player, the inventory stores the
count 0 for "Berry" — a stored count that is not ≥ 1, and the key is not
removed. -/
theorem add_item_zero_stores_zero :
    dget (apply_shop_ops Player.init [ShopOp.add "Berry" 0]).inventory "Berry"
      = some 0 := by decide

/-- `add_item` keeps every stored count ≥ 1 when the added amount is ≥ 1. -/
theorem add_item_keeps_pos (p : Player) (item : String) (amount : Int)
    (ha : 1 ≤ amount) (hpos : ∀ kv ∈ p.inventory, 1 ≤ kv.2) :
    ∀ kv ∈ (p.add_item (item, amount)).inventory, 1 ≤ kv.2 := by
  intro kv hkv
  rcases mem_dset p.inventory item (dgetD p.inventory item 0 + amount) kv
      (by simpa [Player.add_item] using hkv) with hkv' | hkv'
  · rw [hkv']
    have := dgetD_nonneg_of_pos (k := item) hpos
    simp only
    omega
  · exact hpos kv hkv'

/-- `buy` keeps every stored count ≥ 1. -/
theorem buy_keeps_pos (p : Player) (item : String) (price : Int)
    (hpos : ∀ kv ∈ p.inventory, 1 ≤ kv.2) :
    ∀ kv ∈ (p.buy item price).inventory, 1 ≤ kv.2 := by
  unfold Player.buy
  by_cases hm : price ≤ p.money
  · rw [if_pos hm]
    exact add_item_keeps_pos _ item 1 (by omega) hpos
  · rw [if_neg hm]
    exact hpos

/-- `sell` keeps every stored count ≥ 1. -/
theorem sell_keeps_pos (p : Player) (item : String) (price : Int)
    (hpos : ∀ kv ∈ p.inventory, 1 ≤ kv.2) :
    ∀ kv ∈ (p.sell item price).inventory, 1 ≤ kv.2 := by
  unfold Player.sell
  by_cases hg : 0 < dgetD p.inventory item 0
  · rw [if_pos hg]
    rcases hr : ({ p with money := p.money + price } : Player).remove_item (item, 1)
        with _ | p'
    · exact hpos
    · exact remove_item_keeps_pos _ item 1 p' hr hpos
  · rw [if_neg hg]
    exact hpos

/-- Every operation of a buy/sell/add sequence keeps counts ≥ 1, provided
each `add_item` amount is ≥ 1. -/
theorem apply_shop_ops_keeps_pos (ops : List ShopOp) :
    ∀ p : Player, (∀ kv ∈ p.inventory, 1 ≤ kv.2) →
      (∀ op ∈ ops, add_amount_pos op) →
      ∀ kv ∈ (apply_shop_ops p ops).inventory, 1 ≤ kv.2 := by
  induction ops with
  | nil => exact fun p hpos _ => hpos
  | cons op rest ih =>
      intro p hpos hops
      have hop : ∀ kv ∈ (apply_shop_op p op).inventory, 1 ≤ kv.2 := by
        cases op with
        | buy item price => exact buy_keeps_pos p item price hpos
        | sell item price => exact sell_keeps_pos p item price hpos
        | add item amount =>
            exact add_item_keeps_pos p item amount
              (hops (.add item amount) (List.mem_cons_self ..)) hpos
      exact ih (apply_shop_op p op) hop
        (fun o ho => hops o (List.mem_cons_of_mem op ho))

/-- C9 (amended): `buy` adds one unit and deducts the price iff the money
suffices, `sell` adds the price and removes one unit iff the held count
is positive (each a complete no-op otherwise), and after any sequence of
buy/sell/add_item operations every stored count is ≥ 1 — provided every
`add_item` amount in the sequence is ≥ 1 (`add_item` itself does not
clamp: a non-positive amount can store a non-positive count). -/
theorem shop_ops_spec (p : Player) (item : String) (price : Int)
    (ops : List ShopOp) (hn : nodup_keys p.inventory) :
    (price ≤ p.money →
        (p.buy item price).money = p.money - price
        ∧ dgetD (p.buy item price).inventory item 0
            = dgetD p.inventory item 0 + 1)
    ∧ (p.money < price → p.buy item price = p)
    ∧ (0 < dgetD p.inventory item 0 →
        (p.sell item price).money = p.money + price
        ∧ dgetD (p.sell item price).inventory item 0
            = dgetD p.inventory item 0 - 1)
    ∧ (dgetD p.inventory item 0 ≤ 0 → p.sell item price = p)
    ∧ ((∀ kv ∈ p.inventory, 1 ≤ kv.2) → (∀ op ∈ ops, add_amount_pos op) →
        ∀ kv ∈ (apply_shop_ops p ops).inventory, 1 ≤ kv.2) := by
  refine ⟨fun hb => ?_, fun hb => ?_, fun hs => ?_, fun hs => ?_,
    apply_shop_ops_keeps_pos ops p⟩
  · unfold Player.buy Player.add_item
    rw [if_pos hb]
    exact ⟨rfl, by simp only [dgetD, dget_dset_self, Option.getD_some]⟩
  · unfold Player.buy
    rw [if_neg (not_le.mpr hb)]
  · unfold Player.sell
    rw [if_pos hs]
    have hmem : dmem p.inventory item = true := dmem_true_of_dgetD_pos hs
    obtain ⟨v, hv⟩ := Option.isSome_iff_exists.mp (by simpa [dmem] using hmem)
    have hval : dgetD p.inventory item 0 = v := by simp [dgetD, hv]
    unfold Player.remove_item
    by_cases hle : dgetD p.inventory item 0 - 1 ≤ 0
    · rw [if_pos (by simpa using hle), if_pos (by simpa using hmem)]
      refine ⟨rfl, ?_⟩
      have hz : dget (dpop p.inventory item) item = none :=
        dget_dpop_self p.inventory item hn
      rw [hval] at hle hs
      simp only [dgetD, hz, Option.getD_none, hv, Option.getD_some]
      omega
    · rw [if_neg (by simpa using hle)]
      refine ⟨rfl, ?_⟩
      simp only [dgetD, dget_dset_self, Option.getD_some]
  · unfold Player.sell
    rw [if_neg (not_lt.mpr hs)]

/-- Witness for C9's amended theorem: a fresh player sells a Potato Seed
for 5 (money 0 → 5, count 5 → 4), cannot buy at price 10 with money 0,
and after adding 3 "Berry" every stored count is ≥ 1. -/
theorem shop_ops_spec_witness :
    (Player.init.sell "Potato Seed" 5).money = 5
    ∧ dgetD (Player.init.sell "Potato Seed" 5).inventory "Potato Seed" 0 = 4
    ∧ Player.init.buy "Berry Seed" 10 = Player.init
    ∧ ∀ kv ∈ (apply_shop_ops Player.init [ShopOp.add "Berry" 3]).inventory,
        (1 : Int) ≤ kv.2 := by
  have h := shop_ops_spec Player.init "Potato Seed" 5
    [ShopOp.add "Berry" 3] (by decide)
  have h10 := shop_ops_spec Player.init "Berry Seed" 10 [] (by decide)
  have hs := h.2.2.1 (by decide)
  exact ⟨hs.1.trans (by decide), hs.2.trans (by decide),
    h10.2.1 (by decide), h.2.2.2.2 (by decide) (by decide)⟩


/-- With enough energy, the position after `move_player` is the clamped
target cell. -/
theorem move_player_position_of_ge (m : FarmModel) (d : Direction)
    (h : MOVE_COST ≤ m.player.energy) :
    (m.move_player d).player.position =
      (max 0 (min (m.player.position.1 + (MOVE_DELTAS d).1)
            (m.get_dimensions.1 - 1)),
       max 0 (min (m.player.position.2 + (MOVE_DELTAS d).2)
            (m.get_dimensions.2 - 1))) := by
  simp only [FarmModel.move_player, if_neg (not_lt.mpr h)]
  split <;> rfl

/-- With enough energy, `move_player` always sets the direction. -/
theorem move_player_direction_of_ge (m : FarmModel) (d : Direction)
    (h : MOVE_COST ≤ m.player.energy) :
    (m.move_player d).player.direction = d := by
  simp only [FarmModel.move_player, if_neg (not_lt.mpr h)]
  split <;> rfl

/-- With enough energy, `move_player` deducts MOVE_COST exactly when the
position changed. -/
theorem move_player_energy_of_ge (m : FarmModel) (d : Direction)
    (h : MOVE_COST ≤ m.player.energy) :
    (m.move_player d).player.energy =
      (if (m.move_player d).player.position = m.player.position
       then m.player.energy else m.player.energy - MOVE_COST) := by
  rw [move_player_position_of_ge m d h]
  simp only [FarmModel.move_player, if_neg (not_lt.mpr h)]
  split
  · rfl
  · rename_i hne
    rw [if_pos (not_not.mp hne)]

/-- `move_player` with insufficient energy is the identity. -/
theorem move_player_of_lt (m : FarmModel) (d : Direction)
    (h : m.player.energy < MOVE_COST) :
    m.move_player d = m := by
  unfold FarmModel.move_player
  rw [if_pos h]

/-- C4 counterexample: with 0 energy, `move_player` returns before setting
the direction, so the direction is NOT "always set to the given direction
regardless": a player facing down who tries to move up with no energy
still faces down. -/
theorem move_player_direction_counterexample :
    broke_model.player.energy = 0
    ∧ broke_model.player.direction = .down
    ∧ (broke_model.move_player .up).player.direction ≠ .up := by decide

/-- C4 (amended): on a non-empty map (on an empty map Python raises an
IndexError inside `get_dimensions` before reaching `set_direction`, so
nothing is claimed there), provided the energy gate passes
(energy ≥ MOVE_COST = 1), the direction is always set to the given
direction and the energy decreases by exactly 1 iff the position
actually changed; with energy below 1 the whole call is a no-op — it
returns before `get_dimensions` — that leaves even the direction
unchanged. -/
theorem move_player_gated (m : FarmModel) (d : Direction) :
    (m.map ≠ [] → MOVE_COST ≤ m.player.energy →
        (m.move_player d).player.direction = d
        ∧ (m.move_player d).player.energy =
            (if (m.move_player d).player.position = m.player.position
             then m.player.energy else m.player.energy - MOVE_COST))
    ∧ (m.player.energy < MOVE_COST → m.move_player d = m) :=
  ⟨fun _ h => ⟨move_player_direction_of_ge m d h, move_player_energy_of_ge m d h⟩,
   move_player_of_lt m d⟩

/-- Witness for C4's amended theorem: a successful move down from (0, 0)
sets the direction and costs 1; the zero-energy call is the identity. -/
theorem move_player_gated_witness :
    ((FarmModel.init demo_lines).move_player .down).player.direction = .down
    ∧ ((FarmModel.init demo_lines).move_player .down).player.energy = 99
    ∧ broke_model.move_player .left = broke_model := by
  have h := move_player_gated (FarmModel.init demo_lines) .down
  have h2 := move_player_gated broke_model .left
  have hd := h.1 (by decide) (by decide)
  refine ⟨hd.1, ?_, h2.2 (by decide)⟩
  have he := hd.2
  rw [if_neg (by decide)] at he
  exact he.trans (by decide)

/-- Clamping with `max 0 (min x (L - 1))` lands in [0, L-1] whenever
0 < L. -/
theorem clamp_bounds (x L : Int) (hL : 0 < L) :
    0 ≤ max 0 (min x (L - 1)) ∧ max 0 (min x (L - 1)) < L :=
  ⟨le_max_left 0 _,
   max_lt hL (lt_of_le_of_lt (min_le_right x (L - 1)) (by omega))⟩

/-- C5: for every direction, if the player starts inside
[0, rows-1] x [0, cols-1] then after `move_player` the player is still
inside those bounds (rows = number of map rows, cols = length of the
first row). -/
theorem move_player_in_bounds (m : FarmModel) (d : Direction)
    (h1 : 0 ≤ m.player.position.1)
    (h2 : m.player.position.1 < (m.map.length : Int))
    (h3 : 0 ≤ m.player.position.2)
    (h4 : m.player.position.2 < ((m.map.headD []).length : Int)) :
    0 ≤ (m.move_player d).player.position.1
    ∧ (m.move_player d).player.position.1 < (m.map.length : Int)
    ∧ 0 ≤ (m.move_player d).player.position.2
    ∧ (m.move_player d).player.position.2 < ((m.map.headD []).length : Int) := by
  by_cases h : m.player.energy < MOVE_COST
  · rw [move_player_of_lt m d h]
    exact ⟨h1, h2, h3, h4⟩
  · rw [move_player_position_of_ge m d (not_lt.mp h)]
    have hr := clamp_bounds (m.player.position.1 + (MOVE_DELTAS d).1)
      (m.map.length : Int) (by omega)
    have hc := clamp_bounds (m.player.position.2 + (MOVE_DELTAS d).2)
      ((m.map.headD []).length : Int) (by omega)
    exact ⟨hr.1, hr.2, hc.1, hc.2⟩

/-- Witness for C5 on the 3x3 demo map. -/
theorem move_player_in_bounds_witness :
    0 ≤ ((FarmModel.init demo_lines).move_player .up).player.position.1
    ∧ ((FarmModel.init demo_lines).move_player .up).player.position.1 < 3
    ∧ 0 ≤ ((FarmModel.init demo_lines).move_player .up).player.position.2
    ∧ ((FarmModel.init demo_lines).move_player .up).player.position.2 < 3 := by
  have h := move_player_in_bounds (FarmModel.init demo_lines) .up
    (by decide) (by decide) (by decide) (by decide)
  exact ⟨h.1, lt_of_lt_of_eq h.2.1 (by decide), h.2.2.1,
    lt_of_lt_of_eq h.2.2.2 (by decide)⟩

/-- A fresh Kale plant after n `age()` calls: the day counter is n and the
stage follows the source's formula. -/
theorem kale_iterate_eq (n : Nat) :
    Plant.age^[n] KalePlant.new
      = Plant.kale (if 6 ≤ n then 5 else (n + 1) / 2 + 1) n := by
  induction n with
  | zero => decide
  | succ k ih =>
      rw [Function.iterate_succ_apply', ih]
      rfl

/-- C7: a fresh KalePlant after n `age()` calls has stage 5 if n ≥ 6 and
(n+1)//2 + 1 otherwise; `can_harvest` holds iff the stage is 5, in which
case `harvest` returns (Kale, 1); `remove_on_harvest` is true. -/
theorem kale_growth (n : Nat) :
    (Plant.age^[n] KalePlant.new).get_stage
        = (if 6 ≤ n then 5 else (n + 1) / 2 + 1)
    ∧ ((Plant.age^[n] KalePlant.new).can_harvest = true
        ↔ (Plant.age^[n] KalePlant.new).get_stage = 5)
    ∧ ((Plant.age^[n] KalePlant.new).can_harvest = true →
        (Plant.age^[n] KalePlant.new).harvest.1 = some ("Kale", 1))
    ∧ (Plant.age^[n] KalePlant.new).remove_on_harvest = true := by
  rw [kale_iterate_eq n]
  refine ⟨rfl, ?_, ?_, rfl⟩
  · simp [Plant.can_harvest, Plant.get_stage]
  · intro h
    simp only [Plant.can_harvest, beq_iff_eq] at h
    simp [Plant.harvest, h]

/-- Witness for C7 at n = 6 (harvestable) and n = 3 (stage 3). -/
theorem kale_growth_witness :
    (Plant.age^[6] KalePlant.new).get_stage = 5
    ∧ (Plant.age^[6] KalePlant.new).harvest.1 = some ("Kale", 1)
    ∧ (Plant.age^[3] KalePlant.new).get_stage = 3 := by
  have h6 := kale_growth 6
  have h3 := kale_growth 3
  exact ⟨h6.1.trans (by decide), h6.2.2.1 (by decide), h3.1.trans (by decide)⟩


end Farm

